import Mathlib

/-!
Verification of the e-commerce data generator
(`01-ecommerce-analytics/src/data_generator.py`).

Shallow embedding conventions:

* Prices, amounts and timestamps are modelled as rationals (`ℚ`); Python's
  decimal rounding `round(x, 2)` becomes exact round-half-to-even on
  hundredths over `ℚ`.
* The shared pseudo-random source (`np.random`, seeded once in the
  constructor) is modelled as a stream `g : ℕ → ℚ` of realized uniform
  draws in `[0,1)` together with an explicit position `k : ℕ`; every numpy
  primitive consumes exactly one stream element and advances the position,
  mirroring the order of the calls in the source.  A fixed seed determines
  the stream, so "two runs with the same seed" share the same `g` and both
  start at position `0`.
* `np.random.choice(xs, p=ws)` is inverse-CDF selection (`pickCum`),
  `np.random.choice(xs)` is uniform index selection (`uniformIdx`), and
  `np.random.exponential(scale)` is an abstract sampler parameter
  `expSample : ℚ → ℚ → ℚ` (scale, uniform draw ↦ sample), since the
  exponential inverse CDF is not rational.
* `datetime.now()`, called once per loop iteration, is modelled as a clock
  `clock : ℕ → ℚ` (iteration index ↦ wall-clock time in days); distinct
  runs have distinct clocks.
* Fallible Python operations (numpy `ValueError` on an empty population or
  a NaN probability vector, pandas `.iloc[0]` on an empty selection, dict
  `KeyError`) are modelled with `Except String`.
-/

deriving instance DecidableEq for Except

namespace DataGen

/-- Round half to even (banker's rounding), as Python's built-in `round`
does on the integer level. -/
def roundHalfEven (q : ℚ) : ℤ :=
  let n := ⌊q⌋
  let r := q - n
  if r < 1/2 then n
  else if 1/2 < r then n + 1
  else if n % 2 = 0 then n else n + 1

/-- Python's `round(x, 2)`: round to 2 decimal places, half to even. -/
def round2 (x : ℚ) : ℚ := (roundHalfEven (100 * x) : ℚ) / 100

/-- A row of the customer table (`generate_customers`). -/
structure Customer where
  customer_id : ℕ
  customer_segment : String
  region : String
  registration_date : ℚ
  age_group : String
  deriving DecidableEq, Repr

/-- A row of the product table (`generate_products`). -/
structure Product where
  product_id : ℕ
  category : String
  base_price : ℚ
  cost : ℚ
  profit_margin : ℚ
  deriving DecidableEq, Repr

/-- A row of the transaction table (`generate_transactions`). -/
structure Transaction where
  transaction_id : ℕ
  customer_id : ℕ
  product_id : ℕ
  quantity : ℕ
  unit_price : ℚ
  total_amount : ℚ
  transaction_date : ℚ
  channel : String
  deriving DecidableEq, Repr

/-- The fixed segment list of the source. -/
def segments : List String := ["Premium", "Standard", "Basic"]

/-- The fixed region list of the source. -/
def regions : List String := ["North", "South", "East", "West", "Central"]

/-- The fixed age-group list of the source. -/
def age_groups : List String := ["18-25", "26-35", "36-45", "46-55", "55+"]

/-- The fixed category list of the source. -/
def categories : List String := ["Electronics", "Clothing", "Books", "Home", "Sports", "Beauty"]

/-- Inverse-CDF selection from a list by cumulative weights, as numpy's
weighted `choice` realizes a uniform draw `u`; falls back to the last
element when `u` exceeds the total weight, and to `d` on an empty list
(never reached through `npChoiceW`). -/
def pickCum (d : α) : List α → List ℚ → ℚ → α
  | [], _, _ => d
  | [x], _, _ => x
  | x :: _ :: _, [], _ => x
  | x :: y :: t, w :: ws, u => if u < w then x else pickCum d (y :: t) ws (u - w)

/-- Uniform selection from a list, as numpy's unweighted `choice` realizes
a uniform draw `u` as the index `⌊u · n⌋` (clamped into range). -/
def uniformIdx (d : α) (xs : List α) (u : ℚ) : α :=
  xs.getD (min (Int.toNat ⌊u * xs.length⌋) (xs.length - 1)) d

/-- `np.random.choice(xs, p=ws)`: raises on an empty population and on a
probability vector containing NaN (modelled as `none`). -/
def npChoiceW (xs : List α) (pOpt : Option (List ℚ)) (u : ℚ) : Except String α :=
  match xs, pOpt with
  | [], _ => .error "a must be non-empty"
  | _ :: _, none => .error "probabilities contain NaN"
  | x :: t, some ws => .ok (pickCum x (x :: t) ws u)

/-- `np.random.choice(xs)` (uniform, no `p`): raises on an empty
population. -/
def npChoiceU (xs : List α) (u : ℚ) : Except String α :=
  match xs with
  | [] => .error "a must be non-empty"
  | x :: _ => .ok (uniformIdx x xs u)

/-- The per-segment selection weight of the source
(`{'Premium': 3.0, 'Standard': 2.0, 'Basic': 1.0}`); a pandas `.map` with
a dict yields NaN (`none`) for a key outside the dict. -/
def segWeight (s : String) : Option ℚ :=
  if s = "Premium" then some 3
  else if s = "Standard" then some 2
  else if s = "Basic" then some 1
  else none

/-- The normalized customer weight vector
(`customer_weights / customer_weights.sum()`); `none` when some segment
fell outside the weight dict (NaN propagates through the division). -/
def customerP (cs : List Customer) : Option (List ℚ) :=
  let ws := cs.map (fun c => segWeight c.customer_segment)
  if none ∈ ws then none
  else
    let vals := ws.map (fun w => w.getD 0)
    some (vals.map (fun w => w / vals.sum))

/-- The per-segment price multiplier dict
(`{'Premium': 1.1, 'Standard': 1.0, 'Basic': 0.9}`); lookup of any other
key raises `KeyError`. -/
def price_multiplier (s : String) : Except String ℚ :=
  if s = "Premium" then .ok (11/10)
  else if s = "Standard" then .ok 1
  else if s = "Basic" then .ok (9/10)
  else .error "KeyError"

/-- `customers[customers['customer_id'] == cid]['customer_segment'].iloc[0]`:
the segment of the first row matching the id; `.iloc[0]` raises on an
empty selection. -/
def lookupSegment (cs : List Customer) (cid : ℕ) : Except String String :=
  match cs.filter (fun c => c.customer_id == cid) with
  | [] => .error "single positional indexer is out-of-bounds"
  | c :: _ => .ok c.customer_segment

/-- `products[products['product_id'] == pid]['base_price'].iloc[0]`. -/
def lookupBasePrice (ps : List Product) (pid : ℕ) : Except String ℚ :=
  match ps.filter (fun p => p.product_id == pid) with
  | [] => .error "single positional indexer is out-of-bounds"
  | p :: _ => .ok p.base_price

/-- `pd.date_range('2022-01-01', '2024-12-31', periods=n)`, in days since
2022-01-01 (the window spans 1095 days): `n` evenly spaced instants. -/
def regDate (n i : ℕ) : ℚ :=
  if n ≤ 1 then 0 else (i : ℚ) * 1095 / ((n : ℚ) - 1)

/-- `generate_customers`: `n` rows with ids `1..n`; the segment draws for
all rows are consumed first (one size-`n` `np.random.choice` call), then
the region draws, then the age-group draws.  Returns the table and the
advanced stream position. -/
def generate_customers (n : ℕ) (g : ℕ → ℚ) (k : ℕ) : List Customer × ℕ :=
  ((List.range n).map (fun i =>
    { customer_id := i + 1
      customer_segment := pickCum "Premium" segments [1/5, 1/2, 3/10] (g (k + i))
      region := uniformIdx "North" regions (g (k + n + i))
      registration_date := regDate n i
      age_group := pickCum "18-25" age_groups [3/20, 1/4, 1/4, 1/5, 3/20] (g (k + 2*n + i)) }),
   k + 3*n)

/-- `generate_products`: `m` rows with ids `1..m`, uniform base price in
`[10,500]`, uniform cost in `[5,300]`, and the derived margin
`(base_price - cost) / base_price`.  Category draws for all rows are
consumed first, then the price draws, then the cost draws. -/
def generate_products (m : ℕ) (g : ℕ → ℚ) (k : ℕ) : List Product × ℕ :=
  ((List.range m).map (fun i =>
    let bp := 10 + 490 * g (k + m + i)
    let c := 5 + 295 * g (k + 2*m + i)
    { product_id := i + 1
      category := uniformIdx "Electronics" categories (g (k + i))
      base_price := bp
      cost := c
      profit_margin := (bp - c) / bp }),
   k + 3*m)

/-- One iteration of the transaction synthesis loop, for loop index `i` at
stream position `k`: weighted customer draw, segment lookup, uniform
product draw, base-price lookup, multiplier lookup, weighted quantity
draw, exponential recency draw, channel draw — in the source's order.
`total_amount` is `round(quantity * unit_price, 2)` with the *unrounded*
local `unit_price`. -/
def stepTransaction (cs : List Customer) (ps : List Product) (pOpt : Option (List ℚ))
    (expSample : ℚ → ℚ → ℚ) (clock : ℕ → ℚ) (g : ℕ → ℚ) (i k : ℕ) :
    Except String (Transaction × ℕ) :=
  match npChoiceW (cs.map (fun c => c.customer_id)) pOpt (g k) with
  | .error e => .error e
  | .ok cid =>
    match lookupSegment cs cid with
    | .error e => .error e
    | .ok seg =>
      match npChoiceU (ps.map (fun p => p.product_id)) (g (k + 1)) with
      | .error e => .error e
      | .ok pid =>
        match lookupBasePrice ps pid with
        | .error e => .error e
        | .ok bp =>
          match price_multiplier seg with
          | .error e => .error e
          | .ok mult =>
            match npChoiceW [1, 2, 3, 4, 5] (some [1/2, 1/4, 3/20, 7/100, 3/100]) (g (k + 2)) with
            | .error e => .error e
            | .ok qty =>
              match npChoiceW ["Online", "Store"] (some [7/10, 3/10]) (g (k + 4)) with
              | .error e => .error e
              | .ok chan =>
                let unit_price := bp * mult
                let days_back := expSample 30 (g (k + 3))
                .ok ({ transaction_id := i + 1
                       customer_id := cid
                       product_id := pid
                       quantity := qty
                       unit_price := round2 unit_price
                       total_amount := round2 ((qty : ℚ) * unit_price)
                       transaction_date := clock i - min days_back 365
                       channel := chan }, k + 5)

/-- The `for i in range(n_transactions)` loop: `r` remaining iterations,
next loop index `i`, stream position `k`; the first raised error aborts
the whole run. -/
def transLoop (cs : List Customer) (ps : List Product) (pOpt : Option (List ℚ))
    (expSample : ℚ → ℚ → ℚ) (clock : ℕ → ℚ) (g : ℕ → ℚ) :
    ℕ → ℕ → ℕ → Except String (List Transaction × ℕ)
  | 0, _, k => .ok ([], k)
  | r + 1, i, k =>
    match stepTransaction cs ps pOpt expSample clock g i k with
    | .error e => .error e
    | .ok (t, k') =>
      match transLoop cs ps pOpt expSample clock g r (i + 1) k' with
      | .error e => .error e
      | .ok (ts, k'') => .ok (t :: ts, k'')

/-- `generate_transactions`: normalizes the segment weights once, then
runs the loop `T` times from loop index `0`. -/
def generate_transactions (cs : List Customer) (ps : List Product)
    (expSample : ℚ → ℚ → ℚ) (clock : ℕ → ℚ) (T : ℕ) (g : ℕ → ℚ) (k : ℕ) :
    Except String (List Transaction × ℕ) :=
  transLoop cs ps (customerP cs) expSample clock g T 0 k

/-- `generate_all_data`: customers, then products, then transactions, all
reading the one shared stream in sequence. -/
def generate_all_data (n m T : ℕ) (expSample : ℚ → ℚ → ℚ) (clock : ℕ → ℚ)
    (g : ℕ → ℚ) (k : ℕ) :
    Except String (List Customer × List Product × List Transaction × ℕ) :=
  let cs := (generate_customers n g k).1
  let k1 := (generate_customers n g k).2
  let ps := (generate_products m g k1).1
  let k2 := (generate_products m g k1).2
  match generate_transactions cs ps expSample clock T g k2 with
  | .error e => .error e
  | .ok (ts, k3) => .ok (cs, ps, ts, k3)

/-! ### Basic lemmas about the draw primitives and lookups -/

theorem pickCum_mem (d : α) (xs : List α) (ws : List ℚ) (u : ℚ) (h : xs ≠ []) :
    pickCum d xs ws u ∈ xs := by
  induction xs generalizing ws u with
  | nil => exact absurd rfl h
  | cons x t ih =>
    cases t with
    | nil => simp [pickCum]
    | cons y t2 =>
      cases ws with
      | nil => simp [pickCum]
      | cons w ws2 =>
        simp only [pickCum]
        split
        · exact List.mem_cons_self x _
        · exact List.mem_cons_of_mem x (ih ws2 (u - w) (by simp))

theorem uniformIdx_mem (d : α) (xs : List α) (u : ℚ) (h : xs ≠ []) :
    uniformIdx d xs u ∈ xs := by
  have hl : 0 < xs.length := List.length_pos.mpr h
  have hidx : min (Int.toNat ⌊u * xs.length⌋) (xs.length - 1) < xs.length :=
    lt_of_le_of_lt (min_le_right _ _) (Nat.sub_lt hl one_pos)
  rw [uniformIdx, List.getD_eq_getElem?_getD, List.getElem?_eq_getElem hidx]
  exact List.getElem_mem hidx

theorem npChoiceW_ok_mem {xs : List α} {pOpt : Option (List ℚ)} {u : ℚ} {a : α}
    (h : npChoiceW xs pOpt u = .ok a) : a ∈ xs := by
  match xs, pOpt with
  | [], _ => exact Except.noConfusion h
  | _ :: _, none => exact Except.noConfusion h
  | x :: t, some ws =>
    injection h with h
    rw [← h]
    exact pickCum_mem x (x :: t) ws u (by simp)

theorem npChoiceU_ok_mem {xs : List α} {u : ℚ} {a : α}
    (h : npChoiceU xs u = .ok a) : a ∈ xs := by
  match xs with
  | [] => exact Except.noConfusion h
  | x :: t =>
    injection h with h
    rw [← h]
    exact uniformIdx_mem x (x :: t) u (by simp)

theorem npChoiceW_ok_of_ne (xs : List α) (ws : List ℚ) (u : ℚ) (h : xs ≠ []) :
    ∃ a ∈ xs, npChoiceW xs (some ws) u = .ok a := by
  match xs with
  | [] => exact absurd rfl h
  | x :: t => exact ⟨pickCum x (x :: t) ws u, pickCum_mem x (x :: t) ws u (by simp), rfl⟩

theorem npChoiceU_ok_of_ne (xs : List α) (u : ℚ) (h : xs ≠ []) :
    ∃ a ∈ xs, npChoiceU xs u = .ok a := by
  match xs with
  | [] => exact absurd rfl h
  | x :: t => exact ⟨uniformIdx x (x :: t) u, uniformIdx_mem x (x :: t) u (by simp), rfl⟩

theorem lookupSegment_ok_elim {cs : List Customer} {cid : ℕ} {s : String}
    (h : lookupSegment cs cid = .ok s) :
    ∃ c ∈ cs, c.customer_id = cid ∧ c.customer_segment = s := by
  rw [lookupSegment] at h
  cases hf : cs.filter (fun c => c.customer_id == cid) with
  | nil => rw [hf] at h; exact Except.noConfusion h
  | cons c rest =>
    rw [hf] at h
    injection h with h
    have hc : c ∈ cs.filter (fun c => c.customer_id == cid) := by
      rw [hf]; exact List.mem_cons_self c rest
    have hmf := List.mem_filter.mp hc
    exact ⟨c, hmf.1, by simpa using hmf.2, h⟩

theorem lookupSegment_ok_of_mem {cs : List Customer} {cid : ℕ}
    (h : cid ∈ cs.map (fun c => c.customer_id)) :
    ∃ s, lookupSegment cs cid = .ok s ∧ ∃ c ∈ cs, c.customer_id = cid ∧ c.customer_segment = s := by
  obtain ⟨c, hc, hcid⟩ := List.mem_map.mp h
  rw [lookupSegment]
  cases hf : cs.filter (fun c => c.customer_id == cid) with
  | nil =>
    exact absurd (by simpa using hcid) (List.filter_eq_nil_iff.mp hf c hc)
  | cons c0 rest =>
    have hc0 : c0 ∈ cs.filter (fun c => c.customer_id == cid) := by
      rw [hf]; exact List.mem_cons_self c0 rest
    have hmf := List.mem_filter.mp hc0
    exact ⟨c0.customer_segment, rfl, c0, hmf.1, by simpa using hmf.2, rfl⟩

theorem lookupBasePrice_ok_elim {ps : List Product} {pid : ℕ} {b : ℚ}
    (h : lookupBasePrice ps pid = .ok b) :
    ∃ p ∈ ps, p.product_id = pid ∧ p.base_price = b := by
  rw [lookupBasePrice] at h
  cases hf : ps.filter (fun p => p.product_id == pid) with
  | nil => rw [hf] at h; exact Except.noConfusion h
  | cons p rest =>
    rw [hf] at h
    injection h with h
    have hp : p ∈ ps.filter (fun p => p.product_id == pid) := by
      rw [hf]; exact List.mem_cons_self p rest
    have hmf := List.mem_filter.mp hp
    exact ⟨p, hmf.1, by simpa using hmf.2, h⟩

theorem lookupBasePrice_ok_of_mem {ps : List Product} {pid : ℕ}
    (h : pid ∈ ps.map (fun p => p.product_id)) :
    ∃ b, lookupBasePrice ps pid = .ok b ∧ ∃ p ∈ ps, p.product_id = pid ∧ p.base_price = b := by
  obtain ⟨p, hp, hpid⟩ := List.mem_map.mp h
  rw [lookupBasePrice]
  cases hf : ps.filter (fun p => p.product_id == pid) with
  | nil =>
    exact absurd (by simpa using hpid) (List.filter_eq_nil_iff.mp hf p hp)
  | cons p0 rest =>
    have hp0 : p0 ∈ ps.filter (fun p => p.product_id == pid) := by
      rw [hf]; exact List.mem_cons_self p0 rest
    have hmf := List.mem_filter.mp hp0
    exact ⟨p0.base_price, rfl, p0, hmf.1, by simpa using hmf.2, rfl⟩

theorem price_multiplier_ok_of_valid {s : String} (h : s ∈ segments) :
    ∃ q, price_multiplier s = .ok q := by
  simp only [segments, List.mem_cons, List.not_mem_nil, or_false] at h
  rcases h with h | h | h <;> subst h <;> exact ⟨_, rfl⟩

theorem segWeight_some_of_valid {s : String} (h : s ∈ segments) :
    ∃ w, segWeight s = some w := by
  simp only [segments, List.mem_cons, List.not_mem_nil, or_false] at h
  rcases h with h | h | h <;> subst h <;> exact ⟨_, rfl⟩

theorem customerP_some {cs : List Customer}
    (h : ∀ c ∈ cs, c.customer_segment ∈ segments) :
    ∃ p, customerP cs = some p := by
  have hnone : none ∉ cs.map (fun c => segWeight c.customer_segment) := by
    intro hmem
    obtain ⟨c, hc, heq⟩ := List.mem_map.mp hmem
    obtain ⟨w, hw⟩ := segWeight_some_of_valid (h c hc)
    rw [hw] at heq
    exact Option.noConfusion heq
  exact ⟨_, by rw [customerP, if_neg hnone]⟩



theorem stepTransaction_ok_elim {cs : List Customer} {ps : List Product}
    {pOpt : Option (List ℚ)} {expSample : ℚ → ℚ → ℚ} {clock : ℕ → ℚ}
    {g : ℕ → ℚ} {i k : ℕ} {t : Transaction} {k' : ℕ}
    (h : stepTransaction cs ps pOpt expSample clock g i k = .ok (t, k')) :
    k' = k + 5 ∧
    t.transaction_id = i + 1 ∧
    t.customer_id ∈ cs.map (fun c => c.customer_id) ∧
    t.product_id ∈ ps.map (fun p => p.product_id) ∧
    t.quantity ∈ ([1, 2, 3, 4, 5] : List ℕ) ∧
    t.channel ∈ (["Online", "Store"] : List String) ∧
    t.transaction_date = clock i - min (expSample 30 (g (k + 3))) 365 ∧
    ∃ seg bp mult,
      lookupSegment cs t.customer_id = .ok seg ∧
      lookupBasePrice ps t.product_id = .ok bp ∧
      price_multiplier seg = .ok mult ∧
      t.unit_price = round2 (bp * mult) ∧
      t.total_amount = round2 ((t.quantity : ℚ) * (bp * mult)) := by
  unfold stepTransaction at h
  repeat' split at h
  any_goals exact Except.noConfusion h
  rename_i x1 cid hcid x2 seg hseg x3 pid hpid x4 bp hbp x5 mult hmult x6 qty hqty x7 chan hchan
  injection h with h
  injection h with h1 h2
  subst h1
  subst h2
  exact ⟨rfl, rfl, npChoiceW_ok_mem hcid, npChoiceU_ok_mem hpid, npChoiceW_ok_mem hqty,
    npChoiceW_ok_mem hchan, rfl, seg, bp, mult, hseg, hbp, hmult, rfl, rfl⟩

theorem stepTransaction_total {cs : List Customer} {ps : List Product}
    (expSample : ℚ → ℚ → ℚ) (clock : ℕ → ℚ) (g : ℕ → ℚ) (i k : ℕ)
    (hcs : cs ≠ []) (hps : ps ≠ [])
    (hval : ∀ c ∈ cs, c.customer_segment ∈ segments) :
    ∃ t, stepTransaction cs ps (customerP cs) expSample clock g i k = .ok (t, k + 5) := by
  obtain ⟨p, hp⟩ := customerP_some hval
  obtain ⟨cid, hcidmem, hcid⟩ := npChoiceW_ok_of_ne (cs.map (fun c => c.customer_id))
    p (g k) (by simpa using hcs)
  obtain ⟨seg, hseg, c, hcmem, hc_id, hc_seg⟩ := lookupSegment_ok_of_mem hcidmem
  obtain ⟨pid, hpidmem, hpid⟩ := npChoiceU_ok_of_ne (ps.map (fun p => p.product_id))
    (g (k + 1)) (by simpa using hps)
  obtain ⟨bp, hbp, _⟩ := lookupBasePrice_ok_of_mem hpidmem
  have hsegval : seg ∈ segments := hc_seg ▸ hval c hcmem
  obtain ⟨mult, hmult⟩ := price_multiplier_ok_of_valid hsegval
  obtain ⟨qty, _, hqty⟩ := npChoiceW_ok_of_ne ([1, 2, 3, 4, 5] : List ℕ)
    [1/2, 1/4, 3/20, 7/100, 3/100] (g (k + 2)) (by simp)
  obtain ⟨chan, _, hchan⟩ := npChoiceW_ok_of_ne (["Online", "Store"] : List String)
    [7/10, 3/10] (g (k + 4)) (by simp)
  refine ⟨⟨i + 1, cid, pid, qty, round2 (bp * mult), round2 ((qty : ℚ) * (bp * mult)),
    clock i - min (expSample 30 (g (k + 3))) 365, chan⟩, ?_⟩
  unfold stepTransaction
  simp only [hp, hcid, hseg, hpid, hbp, hmult, hqty, hchan]

theorem transLoop_total {cs : List Customer} {ps : List Product}
    (expSample : ℚ → ℚ → ℚ) (clock : ℕ → ℚ) (g : ℕ → ℚ)
    (hcs : cs ≠ []) (hps : ps ≠ [])
    (hval : ∀ c ∈ cs, c.customer_segment ∈ segments) :
    ∀ (r i k : ℕ), ∃ ts,
      transLoop cs ps (customerP cs) expSample clock g r i k = .ok (ts, k + 5 * r) ∧
      ts.length = r ∧
      ts.map (fun t => t.transaction_id) = List.range' (i + 1) r := by
  intro r
  induction r with
  | zero => intro i k; exact ⟨[], by simp [transLoop], rfl, rfl⟩
  | succ r ih =>
    intro i k
    obtain ⟨t, ht⟩ := stepTransaction_total expSample clock g i k hcs hps hval
    obtain ⟨ts, hts, hlen, hids⟩ := ih (i + 1) (k + 5)
    have hid : t.transaction_id = i + 1 := (stepTransaction_ok_elim ht).2.1
    refine ⟨t :: ts, ?_, by simp [hlen], ?_⟩
    · have h5 : k + 5 + 5 * r = k + 5 * (r + 1) := by ring
      simp only [transLoop, ht, hts, h5]
    · rw [List.range'_succ, List.map_cons, hid, hids]

theorem transLoop_mem {cs : List Customer} {ps : List Product} {pOpt : Option (List ℚ)}
    {expSample : ℚ → ℚ → ℚ} {clock : ℕ → ℚ} {g : ℕ → ℚ} :
    ∀ {r i k ts k'}, transLoop cs ps pOpt expSample clock g r i k = .ok (ts, k') →
      ∀ t ∈ ts, ∃ j kj, i ≤ j ∧
        stepTransaction cs ps pOpt expSample clock g j kj = .ok (t, kj + 5) := by
  intro r
  induction r with
  | zero =>
    intro i k ts k' h t ht
    unfold transLoop at h
    injection h with h
    injection h with h1 h2
    rw [← h1] at ht
    exact absurd ht (List.not_mem_nil t)
  | succ r ih =>
    intro i k ts k' h t ht
    unfold transLoop at h
    split at h
    · exact Except.noConfusion h
    · split at h
      · exact Except.noConfusion h
      · rename_i x1 t0 k0 hstep x2 ts0 k1 hloop
        injection h with h
        injection h with h1 h2
        rw [← h1] at ht
        rcases List.mem_cons.mp ht with rfl | hmem
        · have hk0 : k0 = k + 5 := (stepTransaction_ok_elim hstep).1
          exact ⟨i, k, le_rfl, by rw [← hk0]; exact hstep⟩
        · obtain ⟨j, kj, hij, hs⟩ := ih hloop t hmem
          exact ⟨j, kj, le_trans (Nat.le_succ i) hij, hs⟩


/-- A transaction with its wall-clock-dependent timestamp scrubbed. -/
def eraseDate (t : Transaction) : Transaction :=
  { t with transaction_date := 0 }

theorem stepTransaction_clock_strip (cs : List Customer) (ps : List Product)
    (pOpt : Option (List ℚ)) (expSample : ℚ → ℚ → ℚ) (cA cB : ℕ → ℚ)
    (g : ℕ → ℚ) (i k : ℕ) :
    (stepTransaction cs ps pOpt expSample cA g i k).map (fun x => (eraseDate x.1, x.2)) =
    (stepTransaction cs ps pOpt expSample cB g i k).map (fun x => (eraseDate x.1, x.2)) := by
  unfold stepTransaction
  repeat' split
  all_goals rfl

theorem transLoop_clock_strip (cs : List Customer) (ps : List Product)
    (pOpt : Option (List ℚ)) (expSample : ℚ → ℚ → ℚ) (cA cB : ℕ → ℚ) (g : ℕ → ℚ) :
    ∀ r i k,
      (transLoop cs ps pOpt expSample cA g r i k).map (fun x => (x.1.map eraseDate, x.2)) =
      (transLoop cs ps pOpt expSample cB g r i k).map (fun x => (x.1.map eraseDate, x.2)) := by
  intro r
  induction r with
  | zero => intro i k; rfl
  | succ r ih =>
    intro i k
    have hstrip := stepTransaction_clock_strip cs ps pOpt expSample cA cB g i k
    unfold transLoop
    cases hA : stepTransaction cs ps pOpt expSample cA g i k with
    | error e =>
      cases hB : stepTransaction cs ps pOpt expSample cB g i k with
      | error e2 =>
        rw [hA, hB] at hstrip
        simp only [Except.map] at hstrip
        injection hstrip with he
        simp [Except.map, he]
      | ok xB =>
        rw [hA, hB] at hstrip
        simp [Except.map] at hstrip
    | ok xA =>
      cases hB : stepTransaction cs ps pOpt expSample cB g i k with
      | error e2 =>
        rw [hA, hB] at hstrip
        simp [Except.map] at hstrip
      | ok xB =>
        rw [hA, hB] at hstrip
        simp only [Except.map] at hstrip
        injection hstrip with hx
        obtain ⟨tA, kA⟩ := xA
        obtain ⟨tB, kB⟩ := xB
        injection hx with ht hk
        subst hk
        have hrec := ih (i + 1) kA
        cases hrecA : transLoop cs ps pOpt expSample cA g r (i + 1) kA with
        | error e3 =>
          cases hrecB : transLoop cs ps pOpt expSample cB g r (i + 1) kA with
          | error e4 =>
            rw [hrecA, hrecB] at hrec
            simp only [Except.map] at hrec
            injection hrec with he
            simp [Except.map, hrecA, hrecB, he]
          | ok y =>
            rw [hrecA, hrecB] at hrec
            simp [Except.map] at hrec
        | ok yA =>
          cases hrecB : transLoop cs ps pOpt expSample cB g r (i + 1) kA with
          | error e4 =>
            rw [hrecA, hrecB] at hrec
            simp [Except.map] at hrec
          | ok yB =>
            rw [hrecA, hrecB] at hrec
            simp only [Except.map] at hrec
            injection hrec with hy
            obtain ⟨tsA, kA'⟩ := yA
            obtain ⟨tsB, kB'⟩ := yB
            injection hy with hts hk'
            subst hk'
            simp [Except.map, hrecA, hrecB, ht, hts]

/-- Scrub every transaction timestamp in a full `generate_all_data` result. -/
def stripDates (r : Except String (List Customer × List Product × List Transaction × ℕ)) :
    Except String (List Customer × List Product × List Transaction × ℕ) :=
  r.map (fun x => (x.1, x.2.1, x.2.2.1.map eraseDate, x.2.2.2))

theorem generate_all_data_clock_strip (n m T : ℕ) (expSample : ℚ → ℚ → ℚ)
    (cA cB : ℕ → ℚ) (g : ℕ → ℚ) (k : ℕ) :
    stripDates (generate_all_data n m T expSample cA g k) =
    stripDates (generate_all_data n m T expSample cB g k) := by
  unfold generate_all_data generate_transactions
  have h := transLoop_clock_strip (generate_customers n g k).1 (generate_products m g (generate_customers n g k).2).1
    (customerP (generate_customers n g k).1) expSample cA cB g T 0 (generate_products m g (generate_customers n g k).2).2
  cases hA : transLoop (generate_customers n g k).1 (generate_products m g (generate_customers n g k).2).1
      (customerP (generate_customers n g k).1) expSample cA g T 0 (generate_products m g (generate_customers n g k).2).2 with
  | error e =>
    cases hB : transLoop (generate_customers n g k).1 (generate_products m g (generate_customers n g k).2).1
        (customerP (generate_customers n g k).1) expSample cB g T 0 (generate_products m g (generate_customers n g k).2).2 with
    | error e2 =>
      rw [hA, hB] at h
      simp only [Except.map] at h
      injection h with he
      simp [stripDates, Except.map, hA, hB, he]
    | ok y =>
      rw [hA, hB] at h
      simp [Except.map] at h
  | ok yA =>
    cases hB : transLoop (generate_customers n g k).1 (generate_products m g (generate_customers n g k).2).1
        (customerP (generate_customers n g k).1) expSample cB g T 0 (generate_products m g (generate_customers n g k).2).2 with
    | error e2 =>
      rw [hA, hB] at h
      simp [Except.map] at h
    | ok yB =>
      rw [hA, hB] at h
      simp only [Except.map] at h
      injection h with hy
      obtain ⟨tsA, kA⟩ := yA
      obtain ⟨tsB, kB⟩ := yB
      injection hy with hts hk
      subst hk
      simp [stripDates, Except.map, hA, hB, hts]


/-! ### Facts about the generated tables -/

theorem generate_customers_ids (n : ℕ) (g : ℕ → ℚ) (k : ℕ) :
    ((generate_customers n g k).1).map (fun c => c.customer_id) = List.range' 1 n := by
  simp only [generate_customers, List.map_map]
  rw [List.range'_eq_map_range]
  exact List.map_congr_left (fun a _ => by simp [Function.comp]; omega)

theorem generate_customers_segments (n : ℕ) (g : ℕ → ℚ) (k : ℕ) :
    ∀ c ∈ (generate_customers n g k).1, c.customer_segment ∈ segments := by
  intro c hc
  simp only [generate_customers] at hc
  obtain ⟨i, hi, rfl⟩ := List.mem_map.mp hc
  exact pickCum_mem _ segments _ _ (by simp [segments])

theorem generate_customers_length (n : ℕ) (g : ℕ → ℚ) (k : ℕ) :
    ((generate_customers n g k).1).length = n := by
  simp [generate_customers]

theorem generate_products_length (m : ℕ) (g : ℕ → ℚ) (k : ℕ) :
    ((generate_products m g k).1).length = m := by
  simp [generate_products]

theorem lookupSegment_eq_of_nodup {cs : List Customer}
    (hnd : (cs.map (fun c => c.customer_id)).Nodup) {c : Customer} (hc : c ∈ cs) :
    lookupSegment cs c.customer_id = .ok c.customer_segment := by
  induction cs with
  | nil => exact absurd hc (List.not_mem_nil c)
  | cons a t ih =>
    rw [List.map_cons, List.nodup_cons] at hnd
    rcases List.mem_cons.mp hc with rfl | hmem
    · rw [lookupSegment, List.filter_cons_of_pos (by simp)]
    · have hne : (a.customer_id == c.customer_id) = false := by
        have : c.customer_id ∈ t.map (fun c => c.customer_id) :=
          List.mem_map_of_mem _ hmem
        simp only [beq_eq_false_iff_ne, ne_eq]
        intro he
        exact hnd.1 (he ▸ this)
      have hrec := ih hnd.2 hmem
      rw [lookupSegment, List.filter_cons_of_neg (by simp [hne])]
      rw [lookupSegment] at hrec
      exact hrec

theorem lookupBasePrice_eq_of_nodup {ps : List Product}
    (hnd : (ps.map (fun p => p.product_id)).Nodup) {p : Product} (hp : p ∈ ps) :
    lookupBasePrice ps p.product_id = .ok p.base_price := by
  induction ps with
  | nil => exact absurd hp (List.not_mem_nil p)
  | cons a t ih =>
    rw [List.map_cons, List.nodup_cons] at hnd
    rcases List.mem_cons.mp hp with rfl | hmem
    · rw [lookupBasePrice, List.filter_cons_of_pos (by simp)]
    · have hne : (a.product_id == p.product_id) = false := by
        have : p.product_id ∈ t.map (fun p => p.product_id) :=
          List.mem_map_of_mem _ hmem
        simp only [beq_eq_false_iff_ne, ne_eq]
        intro he
        exact hnd.1 (he ▸ this)
      have hrec := ih hnd.2 hmem
      rw [lookupBasePrice, List.filter_cons_of_neg (by simp [hne])]
      rw [lookupBasePrice] at hrec
      exact hrec


/-! ### The spec-side multiplier table -/

/-- The per-segment price multiplier exactly as the spec words it
(Premium = 1.10, Standard = 1.00, Basic = 0.90), as a total function, to
be compared against the source's `price_multiplier` dict. -/
def specSegmentMultiplier (s : String) : ℚ :=
  if s = "Premium" then 11/10
  else if s = "Standard" then 1
  else if s = "Basic" then 9/10
  else 0

theorem price_multiplier_ok_spec {s : String} {q : ℚ}
    (h : price_multiplier s = .ok q) :
    s ∈ segments ∧ specSegmentMultiplier s = q := by
  rw [price_multiplier] at h
  by_cases h1 : s = "Premium"
  · rw [if_pos h1] at h
    injection h with h
    subst h1
    exact ⟨by simp [segments], by rw [specSegmentMultiplier]; simpa using h⟩
  · rw [if_neg h1] at h
    by_cases h2 : s = "Standard"
    · rw [if_pos h2] at h
      injection h with h
      subst h2
      exact ⟨by simp [segments], by rw [specSegmentMultiplier]; simpa using h⟩
    · rw [if_neg h2] at h
      by_cases h3 : s = "Basic"
      · rw [if_pos h3] at h
        injection h with h
        subst h3
        exact ⟨by simp [segments], by rw [specSegmentMultiplier]; simpa using h⟩
      · rw [if_neg h3] at h
        exact Except.noConfusion h

theorem except_map_map {α β γ : Type} (f : β → γ) (h : α → β) (r : Except String α) :
    (r.map h).map f = r.map (fun x => f (h x)) := by
  cases r <;> rfl

theorem stepTransaction_error_of_empty (cs : List Customer) (ps : List Product)
    (expSample : ℚ → ℚ → ℚ) (clock : ℕ → ℚ) (g : ℕ → ℚ) (i k : ℕ)
    (h : cs = [] ∨ ps = []) :
    ∃ e, stepTransaction cs ps (customerP cs) expSample clock g i k = .error e := by
  rcases h with rfl | rfl
  · exact ⟨"a must be non-empty", rfl⟩
  · cases cs with
    | nil => exact ⟨"a must be non-empty", rfl⟩
    | cons c rest =>
      cases hP : customerP (c :: rest) with
      | none =>
        refine ⟨"probabilities contain NaN", ?_⟩
        simp [stepTransaction, npChoiceW, hP]
      | some p =>
        obtain ⟨cid, hmem, hcid⟩ :=
          npChoiceW_ok_of_ne ((c :: rest).map (fun c => c.customer_id)) p (g k) (by simp)
        obtain ⟨seg, hseg, _⟩ := lookupSegment_ok_of_mem hmem
        have hcid2 : npChoiceW (c.customer_id :: rest.map (fun c => c.customer_id))
            (some p) (g k) = .ok cid := by simpa using hcid
        refine ⟨"a must be non-empty", ?_⟩
        simp [stepTransaction, hP, hcid2, hseg, npChoiceU]

/-- The body of one loop iteration as an explicit function of the five
realized draws, named in consumption order: customer draw, product draw,
quantity draw, recency draw, channel draw. -/
def txBody (cs : List Customer) (ps : List Product) (pOpt : Option (List ℚ))
    (expSample : ℚ → ℚ → ℚ) (now : ℚ) (i : ℕ)
    (uCustomer uProduct uQuantity uRecency uChannel : ℚ) : Except String Transaction :=
  match npChoiceW (cs.map (fun c => c.customer_id)) pOpt uCustomer with
  | .error e => .error e
  | .ok cid =>
    match lookupSegment cs cid with
    | .error e => .error e
    | .ok seg =>
      match npChoiceU (ps.map (fun p => p.product_id)) uProduct with
      | .error e => .error e
      | .ok pid =>
        match lookupBasePrice ps pid with
        | .error e => .error e
        | .ok bp =>
          match price_multiplier seg with
          | .error e => .error e
          | .ok mult =>
            match npChoiceW [1, 2, 3, 4, 5] (some [1/2, 1/4, 3/20, 7/100, 3/100]) uQuantity with
            | .error e => .error e
            | .ok qty =>
              match npChoiceW ["Online", "Store"] (some [7/10, 3/10]) uChannel with
              | .error e => .error e
              | .ok chan =>
                let unit_price := bp * mult
                let days_back := expSample 30 uRecency
                .ok { transaction_id := i + 1
                      customer_id := cid
                      product_id := pid
                      quantity := qty
                      unit_price := round2 unit_price
                      total_amount := round2 ((qty : ℚ) * unit_price)
                      transaction_date := now - min days_back 365
                      channel := chan }

/-! ### Concrete inputs used for counterexamples and witnesses -/

/-- One Premium customer. -/
def cexCustomer : Customer := ⟨1, "Premium", "North", 0, "26-35"⟩

/-- One product with base price 10.333. -/
def cexProduct : Product := ⟨1, "Electronics", 10333/1000, 5, 5333/10333⟩

def cexCustomers : List Customer := [cexCustomer]

def cexProducts : List Product := [cexProduct]

/-- A stand-in exponential sampler that always returns 0 days. -/
def cexExp : ℚ → ℚ → ℚ := fun _ _ => 0

/-- A run clock frozen at day 10000. -/
def cexClock : ℕ → ℚ := fun _ => 10000

/-- A draw stream whose third value selects quantity 3 and whose other
values select the first alternative. -/
def cexG : ℕ → ℚ := fun j => if j = 2 then 4/5 else 0

/-- The transaction the source produces from the inputs above:
raw unit price 10.333 · 1.1 = 11.3663, stored unit price 11.37, but
total 34.10 = round2(3 · 11.3663) ≠ 34.11 = round2(3 · 11.37). -/
def cexTx : Transaction := ⟨1, 1, 1, 3, 1137/100, 341/10, 10000, "Online"⟩


/-- A second run clock frozen at day 20000 (a later run of the program). -/
def cexClockB : ℕ → ℚ := fun _ => 20000

/-- A stand-in exponential sampler that always returns 7 days
(everywhere nonnegative). -/
def cexExpNN : ℚ → ℚ → ℚ := fun _ _ => 7

/-- The transaction produced from the counterexample inputs with the
7-day sampler: same as `cexTx` but dated 7 days before the clock. -/
def cexTxNN : Transaction := ⟨1, 1, 1, 3, 1137/100, 341/10, 9993, "Online"⟩

/-- A draw stream with pairwise different values in [0,1). -/
def gC : ℕ → ℚ := fun j => (j + 1) / (j + 2)

/-- A ticking run clock. -/
def clockC : ℕ → ℚ := fun i => 20000 + i

/-! ### The claims -/

/-- C1, counterexample: on a concrete run the stored total_amount is
34.10 while round2(quantity · stored unit_price) is 34.11: the code
rounds quantity times the *unrounded* unit price, not the rounded one. -/
theorem c1_counterexample :
    generate_transactions cexCustomers cexProducts cexExp cexClock 1 cexG 0 =
      .ok ([cexTx], 5) ∧
    cexTx.total_amount ≠ round2 ((cexTx.quantity : ℚ) * cexTx.unit_price) := by
  constructor
  · norm_num [generate_transactions, transLoop, stepTransaction, customerP, segWeight,
      npChoiceW, npChoiceU, pickCum, uniformIdx, lookupSegment, lookupBasePrice,
      price_multiplier, round2, roundHalfEven, cexCustomers, cexProducts, cexCustomer,
      cexProduct, cexExp, cexClock, cexG, cexTx, List.filter, min_def]
    all_goals simp only [reduceCtorEq, if_false]
    all_goals norm_num [pickCum, lookupSegment, price_multiplier, round2, roundHalfEven,
      List.filter, min_def, Int.fract]
  · norm_num [cexTx, round2, roundHalfEven, Int.fract]

/-- C1, amended: for every generated transaction, the stored unit_price
is round2 of the raw unit price base_price · multiplier, while the stored
total_amount is round2 of quantity times that *unrounded* raw unit price
(they agree when quantity = 1, but not in general). -/
theorem c1_total_amount_from_unrounded_price (cs : List Customer) (ps : List Product)
    (expSample : ℚ → ℚ → ℚ) (clock : ℕ → ℚ) (T : ℕ) (g : ℕ → ℚ) (k : ℕ)
    (ts : List Transaction) (k' : ℕ)
    (hrun : generate_transactions cs ps expSample clock T g k = .ok (ts, k'))
    (t : Transaction) (ht : t ∈ ts) :
    ∃ seg mult bp,
      lookupSegment cs t.customer_id = .ok seg ∧
      price_multiplier seg = .ok mult ∧
      lookupBasePrice ps t.product_id = .ok bp ∧
      t.unit_price = round2 (bp * mult) ∧
      t.total_amount = round2 ((t.quantity : ℚ) * (bp * mult)) := by
  unfold generate_transactions at hrun
  obtain ⟨j, kj, hij, hs⟩ := transLoop_mem hrun t ht
  obtain ⟨_, _, _, _, _, _, _, seg, bp, mult, hseg, hbp, hmult, hup, htot⟩ :=
    stepTransaction_ok_elim hs
  exact ⟨seg, mult, bp, hseg, hmult, hbp, hup, htot⟩

/-- Witness for C1 (amended) at the concrete counterexample run. -/
theorem c1_total_amount_from_unrounded_price_witness :
    ∃ seg mult bp,
      lookupSegment cexCustomers cexTx.customer_id = .ok seg ∧
      price_multiplier seg = .ok mult ∧
      lookupBasePrice cexProducts cexTx.product_id = .ok bp ∧
      cexTx.unit_price = round2 (bp * mult) ∧
      cexTx.total_amount = round2 ((cexTx.quantity : ℚ) * (bp * mult)) :=
  c1_total_amount_from_unrounded_price cexCustomers cexProducts cexExp cexClock 1 cexG 0
    [cexTx] 5
    (by norm_num [generate_transactions, transLoop, stepTransaction, customerP, segWeight,
          npChoiceW, npChoiceU, pickCum, uniformIdx, lookupSegment, lookupBasePrice,
          price_multiplier, round2, roundHalfEven, cexCustomers, cexProducts, cexCustomer,
          cexProduct, cexExp, cexClock, cexG, cexTx, List.filter, min_def]
        all_goals simp only [reduceCtorEq, if_false]
        all_goals norm_num [pickCum, lookupSegment, price_multiplier, round2, roundHalfEven,
          List.filter, min_def, Int.fract])
    cexTx (by simp)

/-- C8: the generated customer table of size n has ids exactly 1..n, each
exactly once. -/
theorem c8_customer_ids_contiguous (n : ℕ) (g : ℕ → ℚ) (k : ℕ) :
    ((generate_customers n g k).1).length = n ∧
    ((generate_customers n g k).1).map (fun c => c.customer_id) = List.range' 1 n ∧
    (((generate_customers n g k).1).map (fun c => c.customer_id)).Nodup ∧
    ∀ j : ℕ, j ∈ ((generate_customers n g k).1).map (fun c => c.customer_id) ↔
      1 ≤ j ∧ j ≤ n := by
  refine ⟨generate_customers_length n g k, generate_customers_ids n g k, ?_, ?_⟩
  · rw [generate_customers_ids]
    exact List.nodup_range' 1 n
  · intro j
    rw [generate_customers_ids, List.mem_range'_1]
    omega


/-- A draw stream making the single product's cost draw large, so cost
exceeds the base price. -/
def gNeg : ℕ → ℚ := fun j => if j = 2 then 1/2 else 0

/-- The product generated from `gNeg`: base price 10, cost 152.5, margin
(10 - 152.5)/10 = -14.25. -/
def cexProductNeg : Product := ⟨1, "Electronics", 10, 305/2, -57/4⟩

/-- C3, counterexample: with empty customer and product tables and a
count of 0, `generate_transactions` succeeds with an (empty) output
table, and `generate_customers 0` likewise returns a table without any
error — there is no fail-fast precondition check. -/
theorem c3_counterexample :
    generate_transactions ([] : List Customer) ([] : List Product) cexExp cexClock 0 cexG 0 =
      .ok ([], 0) ∧
    generate_customers 0 cexG 0 = ([], 0) := by
  exact ⟨rfl, rfl⟩

/-- C3, amended: the code performs no input validation.  A count of 0
silently yields an empty table; an empty customer or product table only
raises an error when at least one transaction is drawn, from inside the
numpy draw itself. -/
theorem c3_no_validation (cs : List Customer) (ps : List Product)
    (expSample : ℚ → ℚ → ℚ) (clock : ℕ → ℚ) (g : ℕ → ℚ) (k : ℕ) :
    generate_transactions cs ps expSample clock 0 g k = .ok ([], k) ∧
    ∀ T, 1 ≤ T → cs = [] ∨ ps = [] →
      ∃ e, generate_transactions cs ps expSample clock T g k = .error e := by
  constructor
  · rfl
  · intro T hT hor
    obtain ⟨r, rfl⟩ : ∃ r, T = r + 1 := ⟨T - 1, by omega⟩
    obtain ⟨e, he⟩ := stepTransaction_error_of_empty cs ps expSample clock g 0 k hor
    exact ⟨e, by simp [generate_transactions, transLoop, he]⟩

/-- Witness for C3 (amended) with an empty customer table. -/
theorem c3_no_validation_witness :
    generate_transactions ([] : List Customer) cexProducts cexExp cexClock 0 cexG 0 =
      .ok ([], 0) ∧
    ∃ e, generate_transactions ([] : List Customer) cexProducts cexExp cexClock 1 cexG 0 =
      .error e :=
  ⟨(c3_no_validation [] cexProducts cexExp cexClock cexG 0).1,
   (c3_no_validation [] cexProducts cexExp cexClock cexG 0).2 1 (by norm_num) (Or.inl rfl)⟩

/-- C9: every generated product's profit_margin is exactly
(base_price - cost)/base_price, and when cost exceeds the base price the
margin is negative and kept as-is (no clamping anywhere). -/
theorem c9_profit_margin (m : ℕ) (g : ℕ → ℚ) (k : ℕ) (hg : ∀ j, 0 ≤ g j) :
    ∀ p ∈ (generate_products m g k).1,
      p.profit_margin = (p.base_price - p.cost) / p.base_price ∧
      (p.base_price < p.cost → p.profit_margin < 0) := by
  intro p hp
  rw [generate_products] at hp
  obtain ⟨i, hi, rfl⟩ := List.mem_map.mp hp
  refine ⟨rfl, ?_⟩
  intro hlt
  have hlt2 : (10 + 490 * g (k + m + i) : ℚ) < 5 + 295 * g (k + 2 * m + i) := hlt
  have hg2 := hg (k + m + i)
  exact div_neg_of_neg_of_pos (by linarith) (by linarith)

/-- Witness for C9 at a product whose cost draw exceeds its price draw. -/
theorem c9_profit_margin_witness :
    cexProductNeg.profit_margin =
      (cexProductNeg.base_price - cexProductNeg.cost) / cexProductNeg.base_price ∧
    (cexProductNeg.base_price < cexProductNeg.cost → cexProductNeg.profit_margin < 0) :=
  c9_profit_margin 1 gNeg 0
    (by intro j; simp only [gNeg]; split <;> norm_num)
    cexProductNeg
    (by norm_num [generate_products, uniformIdx, gNeg, cexProductNeg, categories,
          List.getD, List.range_succ])

/-- C2, amended: with the same seed (same realized draw stream) and the
same counts, two runs agree exactly on the customer and product tables
and agree on the transaction table up to the wall-clock-derived
transaction_date field; runs whose clocks coincide agree exactly. -/
theorem c2_determinism_up_to_clock (n m T : ℕ) (expSample : ℚ → ℚ → ℚ)
    (cA cB : ℕ → ℚ) (g : ℕ → ℚ) (k : ℕ) :
    stripDates (generate_all_data n m T expSample cA g k) =
      stripDates (generate_all_data n m T expSample cB g k) ∧
    (generate_all_data n m T expSample cA g k).map (fun x => (x.1, x.2.1)) =
      (generate_all_data n m T expSample cB g k).map (fun x => (x.1, x.2.1)) ∧
    (cA = cB →
      generate_all_data n m T expSample cA g k =
        generate_all_data n m T expSample cB g k) := by
  refine ⟨generate_all_data_clock_strip n m T expSample cA cB g k, ?_, fun h => by rw [h]⟩
  have h1 := generate_all_data_clock_strip n m T expSample cA cB g k
  have h2 := congrArg (Except.map (fun x => (x.1, x.2.1))) h1
  rw [stripDates, stripDates, except_map_map, except_map_map] at h2
  exact h2

/-- Witness for C2 (amended) at two concrete run clocks. -/
theorem c2_determinism_up_to_clock_witness :
    stripDates (generate_all_data 1 1 1 cexExp cexClock cexG 0) =
      stripDates (generate_all_data 1 1 1 cexExp cexClockB cexG 0) ∧
    generate_all_data 1 1 1 cexExp cexClock cexG 0 =
      generate_all_data 1 1 1 cexExp cexClock cexG 0 :=
  ⟨(c2_determinism_up_to_clock 1 1 1 cexExp cexClock cexClockB cexG 0).1,
   (c2_determinism_up_to_clock 1 1 1 cexExp cexClock cexClock cexG 0).2.2 rfl⟩


/-- C2, counterexample: two runs with the same seed (stream) and the same
counts, but at different wall-clock times, produce different outputs (the
transaction_date field moves with the clock), so the tables are not
byte-identical. -/
theorem c2_counterexample :
    generate_all_data 1 1 1 cexExp cexClock cexG 0 ≠
    generate_all_data 1 1 1 cexExp cexClockB cexG 0 := by
  norm_num [generate_all_data, generate_transactions, transLoop, stepTransaction,
    generate_customers, generate_products, customerP, segWeight, npChoiceW, npChoiceU,
    pickCum, uniformIdx, lookupSegment, lookupBasePrice, price_multiplier, round2,
    roundHalfEven, regDate, segments, regions, age_groups, categories, List.filter,
    List.getD, min_def, List.range_succ, cexExp, cexClock, cexClockB, cexG]
  all_goals simp only [reduceCtorEq, String.reduceEq, if_false]
  all_goals norm_num +decide [pickCum, uniformIdx, lookupSegment, lookupBasePrice,
    price_multiplier, round2, roundHalfEven, customerP, segWeight, npChoiceW, npChoiceU,
    List.filter, List.getD, min_def, Int.fract, Except.map, Int.toNat_ofNat,
    List.getElem_cons_zero, List.getElem_cons_succ]

set_option maxRecDepth 8000 in
set_option maxHeartbeats 1000000 in
/-- C10: the stream position strictly advances across `generate_all_data`
(by 3n + 3m + 5T), so a second call on the same instance resumes from the
advanced state; on a concrete stream the second call yields a different
customer table, product table and transaction table.  Reproducibility
needs a fresh instance, which restarts the same stream at position 0. -/
theorem c10_instance_reuse_not_reproducible :
    (∀ (n m T : ℕ) (expSample : ℚ → ℚ → ℚ) (clock : ℕ → ℚ) (g : ℕ → ℚ) (k : ℕ),
      1 ≤ n → 1 ≤ m →
      ∃ cs ps ts,
        generate_all_data n m T expSample clock g k =
          .ok (cs, ps, ts, k + 3 * n + 3 * m + 5 * T) ∧
        k < k + 3 * n + 3 * m + 5 * T) ∧
    (generate_all_data 1 1 1 cexExp clockC gC 0).map (fun x => x.1) ≠
      (generate_all_data 1 1 1 cexExp clockC gC 11).map (fun x => x.1) ∧
    (generate_all_data 1 1 1 cexExp clockC gC 0).map (fun x => x.2.1) ≠
      (generate_all_data 1 1 1 cexExp clockC gC 11).map (fun x => x.2.1) ∧
    (generate_all_data 1 1 1 cexExp clockC gC 0).map (fun x => x.2.2.1) ≠
      (generate_all_data 1 1 1 cexExp clockC gC 11).map (fun x => x.2.2.1) := by
  refine ⟨?_, ?_, ?_, ?_⟩
  · intro n m T expSample clock g k hn hm
    have hlc := generate_customers_length n g k
    have hcs : (generate_customers n g k).1 ≠ [] := by
      intro hnil
      rw [hnil] at hlc
      simp at hlc
      omega
    have hlp := generate_products_length m g ((generate_customers n g k).2)
    have hps : (generate_products m g ((generate_customers n g k).2)).1 ≠ [] := by
      intro hnil
      rw [hnil] at hlp
      simp at hlp
      omega
    obtain ⟨ts, hloop, _, _⟩ := transLoop_total expSample clock g hcs hps
      (generate_customers_segments n g k) T 0
      ((generate_products m g ((generate_customers n g k).2)).2)
    refine ⟨(generate_customers n g k).1,
      (generate_products m g ((generate_customers n g k).2)).1, ts, ?_, by omega⟩
    have hpos : (generate_products m g ((generate_customers n g k).2)).2 + 5 * T =
        k + 3 * n + 3 * m + 5 * T := rfl
    unfold generate_all_data generate_transactions
    dsimp only
    rw [hloop]
    dsimp only
    rw [hpos]
  all_goals
    norm_num [generate_all_data, generate_transactions, transLoop, stepTransaction,
      generate_customers, generate_products, customerP, segWeight, npChoiceW, npChoiceU,
      pickCum, uniformIdx, lookupSegment, lookupBasePrice, price_multiplier, round2,
      roundHalfEven, regDate, segments, regions, age_groups, categories, List.filter,
      List.getD, min_def, List.range_succ, cexExp, clockC, gC]
  all_goals simp only [reduceCtorEq, String.reduceEq, if_false]
  all_goals norm_num +decide [pickCum, uniformIdx, lookupSegment, lookupBasePrice,
    price_multiplier, round2, roundHalfEven, customerP, segWeight, npChoiceW, npChoiceU,
    List.filter, List.getD, min_def, Int.fract, Except.map, Int.toNat_ofNat,
    List.getElem_cons_zero, List.getElem_cons_succ]

/-- Witness for the universally quantified part of C10. -/
theorem c10_instance_reuse_not_reproducible_witness :
    ∃ cs ps ts,
      generate_all_data 1 1 1 cexExp clockC gC 0 =
        .ok (cs, ps, ts, 0 + 3 * 1 + 3 * 1 + 5 * 1) ∧
      0 < 0 + 3 * 1 + 3 * 1 + 5 * 1 :=
  c10_instance_reuse_not_reproducible.1 1 1 1 cexExp clockC gC 0 (by norm_num) (by norm_num)


/-- C4: every generated transaction's stored unit_price equals
round2(base_price · multiplier(segment)) for the referenced customer's
segment and the referenced product's base price, with the multiplier
table Premium = 1.10, Standard = 1.00, Basic = 0.90
(`specSegmentMultiplier`). -/
theorem c4_unit_price_segment_multiplier (cs : List Customer) (ps : List Product)
    (expSample : ℚ → ℚ → ℚ) (clock : ℕ → ℚ) (T : ℕ) (g : ℕ → ℚ) (k : ℕ)
    (ts : List Transaction) (k' : ℕ)
    (hrun : generate_transactions cs ps expSample clock T g k = .ok (ts, k'))
    (hndc : (cs.map (fun c => c.customer_id)).Nodup)
    (hndp : (ps.map (fun p => p.product_id)).Nodup)
    (t : Transaction) (ht : t ∈ ts)
    (c : Customer) (hc : c ∈ cs) (hcid : c.customer_id = t.customer_id)
    (p : Product) (hp : p ∈ ps) (hpid : p.product_id = t.product_id) :
    c.customer_segment ∈ segments ∧
    t.unit_price = round2 (p.base_price * specSegmentMultiplier c.customer_segment) := by
  unfold generate_transactions at hrun
  obtain ⟨j, kj, _, hs⟩ := transLoop_mem hrun t ht
  obtain ⟨_, _, _, _, _, _, _, seg, bp, mult, hseg, hbp, hmult, hup, _⟩ :=
    stepTransaction_ok_elim hs
  have hseg2 : lookupSegment cs t.customer_id = .ok c.customer_segment := by
    rw [← hcid]
    exact lookupSegment_eq_of_nodup hndc hc
  have hbp2 : lookupBasePrice ps t.product_id = .ok p.base_price := by
    rw [← hpid]
    exact lookupBasePrice_eq_of_nodup hndp hp
  have hsegeq : seg = c.customer_segment := by
    have h2 := hseg2.symm.trans hseg
    injection h2 with h2
    exact h2.symm
  have hbpeq : bp = p.base_price := by
    have h2 := hbp2.symm.trans hbp
    injection h2 with h2
    exact h2.symm
  subst hsegeq
  subst hbpeq
  obtain ⟨hmem_seg, hspec⟩ := price_multiplier_ok_spec hmult
  refine ⟨hmem_seg, ?_⟩
  rw [hup, hspec]

/-- Witness for C4 at the concrete counterexample run. -/
theorem c4_unit_price_segment_multiplier_witness :
    cexCustomer.customer_segment ∈ segments ∧
    cexTx.unit_price =
      round2 (cexProduct.base_price * specSegmentMultiplier cexCustomer.customer_segment) :=
  c4_unit_price_segment_multiplier cexCustomers cexProducts cexExp cexClock 1 cexG 0
    [cexTx] 5
    (by norm_num [generate_transactions, transLoop, stepTransaction, customerP, segWeight,
          npChoiceW, npChoiceU, pickCum, uniformIdx, lookupSegment, lookupBasePrice,
          price_multiplier, round2, roundHalfEven, cexCustomers, cexProducts, cexCustomer,
          cexProduct, cexExp, cexClock, cexG, cexTx, List.filter, min_def]
        all_goals simp only [reduceCtorEq, if_false]
        all_goals norm_num [pickCum, lookupSegment, price_multiplier, round2, roundHalfEven,
          List.filter, min_def, Int.fract])
    (by simp [cexCustomers, cexCustomer])
    (by simp [cexProducts, cexProduct])
    cexTx (by simp)
    cexCustomer (by simp [cexCustomers]) rfl
    cexProduct (by simp [cexProducts]) rfl

/-- C5: one loop iteration at stream position k equals the loop body
applied to the five stream cells k..k+4 in the roles customer draw,
product draw, quantity draw, recency draw, channel draw (in that order),
advancing the position to k+5; and the iteration's result depends on the
stream only through those five cells. -/
theorem c5_draw_order (cs : List Customer) (ps : List Product) (pOpt : Option (List ℚ))
    (expSample : ℚ → ℚ → ℚ) (clock : ℕ → ℚ) (g : ℕ → ℚ) (i k : ℕ) :
    stepTransaction cs ps pOpt expSample clock g i k =
      (txBody cs ps pOpt expSample (clock i) i
        (g k) (g (k + 1)) (g (k + 2)) (g (k + 3)) (g (k + 4))).map (fun t => (t, k + 5)) ∧
    ∀ g' : ℕ → ℚ, g k = g' k → g (k + 1) = g' (k + 1) → g (k + 2) = g' (k + 2) →
      g (k + 3) = g' (k + 3) → g (k + 4) = g' (k + 4) →
      stepTransaction cs ps pOpt expSample clock g i k =
        stepTransaction cs ps pOpt expSample clock g' i k := by
  constructor
  · unfold stepTransaction txBody
    repeat' split
    all_goals rfl
  · intro g' h0 h1 h2 h3 h4
    unfold stepTransaction
    rw [h0, h1, h2, h3, h4]

/-- Witness for C5 at the concrete counterexample inputs. -/
theorem c5_draw_order_witness :
    stepTransaction cexCustomers cexProducts (customerP cexCustomers) cexExp cexClock
      cexG 0 0 =
      (txBody cexCustomers cexProducts (customerP cexCustomers) cexExp (cexClock 0) 0
        (cexG 0) (cexG 1) (cexG 2) (cexG 3) (cexG 4)).map (fun t => (t, 5)) ∧
    stepTransaction cexCustomers cexProducts (customerP cexCustomers) cexExp cexClock
      cexG 0 0 =
      stepTransaction cexCustomers cexProducts (customerP cexCustomers) cexExp cexClock
      cexG 0 0 :=
  ⟨(c5_draw_order cexCustomers cexProducts (customerP cexCustomers) cexExp cexClock
      cexG 0 0).1,
   (c5_draw_order cexCustomers cexProducts (customerP cexCustomers) cexExp cexClock
      cexG 0 0).2 cexG rfl rfl rfl rfl rfl⟩

/-- C6: every generated transaction has an integer quantity between 1 and
5, a timestamp not after the wall-clock time of its own iteration, and a
recency offset (clock minus timestamp) of at most 365 days — assuming the
exponential sampler is nonnegative, as the exponential distribution is. -/
theorem c6_quantity_and_recency_bounds (cs : List Customer) (ps : List Product)
    (expSample : ℚ → ℚ → ℚ) (clock : ℕ → ℚ) (T : ℕ) (g : ℕ → ℚ) (k : ℕ)
    (ts : List Transaction) (k' : ℕ)
    (hexp : ∀ u : ℚ, 0 ≤ expSample 30 u)
    (hrun : generate_transactions cs ps expSample clock T g k = .ok (ts, k'))
    (t : Transaction) (ht : t ∈ ts) :
    1 ≤ t.quantity ∧ t.quantity ≤ 5 ∧
    t.transaction_date ≤ clock (t.transaction_id - 1) ∧
    clock (t.transaction_id - 1) - t.transaction_date ≤ 365 := by
  unfold generate_transactions at hrun
  obtain ⟨j, kj, _, hs⟩ := transLoop_mem hrun t ht
  obtain ⟨_, hid, _, _, hqty, _, hdate, _⟩ := stepTransaction_ok_elim hs
  have hclock : clock (t.transaction_id - 1) = clock j := by
    rw [hid]
    congr 1
  have hq : t.quantity = 1 ∨ t.quantity = 2 ∨ t.quantity = 3 ∨ t.quantity = 4 ∨
      t.quantity = 5 := by simpa using hqty
  have hmin1 : (0:ℚ) ≤ min (expSample 30 (g (kj + 3))) 365 :=
    le_min (hexp _) (by norm_num)
  have hmin2 : min (expSample 30 (g (kj + 3))) 365 ≤ 365 := min_le_right _ _
  refine ⟨?_, ?_, ?_, ?_⟩
  · rcases hq with h|h|h|h|h <;> omega
  · rcases hq with h|h|h|h|h <;> omega
  · rw [hclock, hdate]
    linarith
  · rw [hclock, hdate]
    linarith

/-- Witness for C6 with a constant 7-day sampler. -/
theorem c6_quantity_and_recency_bounds_witness :
    1 ≤ cexTxNN.quantity ∧ cexTxNN.quantity ≤ 5 ∧
    cexTxNN.transaction_date ≤ cexClock (cexTxNN.transaction_id - 1) ∧
    cexClock (cexTxNN.transaction_id - 1) - cexTxNN.transaction_date ≤ 365 :=
  c6_quantity_and_recency_bounds cexCustomers cexProducts cexExpNN cexClock 1 cexG 0
    [cexTxNN] 5 (fun u => by norm_num [cexExpNN])
    (by norm_num [generate_transactions, transLoop, stepTransaction, customerP, segWeight,
          npChoiceW, npChoiceU, pickCum, uniformIdx, lookupSegment, lookupBasePrice,
          price_multiplier, round2, roundHalfEven, cexCustomers, cexProducts, cexCustomer,
          cexProduct, cexExpNN, cexClock, cexG, cexTxNN, List.filter, min_def]
        all_goals simp only [reduceCtorEq, if_false]
        all_goals norm_num [pickCum, lookupSegment, price_multiplier, round2, roundHalfEven,
          List.filter, min_def, Int.fract])
    cexTxNN (by simp)

/-- C7: given generated (hence schema-valid) nonempty customer and
product tables, the synthesizer succeeds and produces exactly T records,
with transaction ids 1..T in draw order, and every record's customer_id
and product_id resolving to a record of the respective input table. -/
theorem c7_count_ids_foreign_keys (n m : ℕ) (gc gp : ℕ → ℚ) (kc kp : ℕ)
    (expSample : ℚ → ℚ → ℚ) (clock : ℕ → ℚ) (T : ℕ) (g : ℕ → ℚ) (k : ℕ)
    (hn : 1 ≤ n) (hm : 1 ≤ m) :
    ∃ ts,
      generate_transactions (generate_customers n gc kc).1 (generate_products m gp kp).1
        expSample clock T g k = .ok (ts, k + 5 * T) ∧
      ts.length = T ∧
      ts.map (fun t => t.transaction_id) = List.range' 1 T ∧
      ∀ t ∈ ts,
        (∃ c ∈ (generate_customers n gc kc).1, c.customer_id = t.customer_id) ∧
        (∃ p ∈ (generate_products m gp kp).1, p.product_id = t.product_id) := by
  have hlc := generate_customers_length n gc kc
  have hcs : (generate_customers n gc kc).1 ≠ [] := by
    intro hnil
    rw [hnil] at hlc
    simp at hlc
    omega
  have hlp := generate_products_length m gp kp
  have hps : (generate_products m gp kp).1 ≠ [] := by
    intro hnil
    rw [hnil] at hlp
    simp at hlp
    omega
  obtain ⟨ts, hloop, hlen, hids⟩ := transLoop_total expSample clock g hcs hps
    (generate_customers_segments n gc kc) T 0 k
  refine ⟨ts, hloop, hlen, by simpa using hids, ?_⟩
  intro t ht
  obtain ⟨j, kj, _, hs⟩ := transLoop_mem hloop t ht
  obtain ⟨_, _, hcmem, hpmem, _⟩ := stepTransaction_ok_elim hs
  exact ⟨List.mem_map.mp hcmem, List.mem_map.mp hpmem⟩

/-- Witness for C7 at concrete sizes 1/1/1. -/
theorem c7_count_ids_foreign_keys_witness :
    ∃ ts,
      generate_transactions (generate_customers 1 cexG 0).1 (generate_products 1 cexG 3).1
        cexExp cexClock 1 cexG 6 = .ok (ts, 6 + 5 * 1) ∧
      ts.length = 1 ∧
      ts.map (fun t => t.transaction_id) = List.range' 1 1 ∧
      ∀ t ∈ ts,
        (∃ c ∈ (generate_customers 1 cexG 0).1, c.customer_id = t.customer_id) ∧
        (∃ p ∈ (generate_products 1 cexG 3).1, p.product_id = t.product_id) :=
  c7_count_ids_foreign_keys 1 1 cexG cexG 0 3 cexExp cexClock 1 cexG 6
    (by norm_num) (by norm_num)

end DataGen
